import Mathlib

/-!
Verification of the Alana_System Segmentation Engine and Retrieval &
Context-Assembly Engine, shallowly embedded from the Python sources:

  src/alana_system/preprocessing/chunker.py   (TextChunker)
  src/alana_system/query/query_engine.py      (QueryEngine)
  run_search.py                               (truncate_context_by_budget, main loop)

Python strings are modelled as `List Char`; `len` is `List.length`;
Python integers are `Nat` where they are always non-negative in the code.
Similarity scores are `float` in the source; only their linear order matters
to any property proved here, so they are modelled as `ℚ`.
The potentially non-terminating `while` loops are embedded with explicit
fuel returning `Option`: `none` means the fuel ran out.
-/

-- ============================================================
-- Python string primitives
-- ============================================================

/-- Whitespace test used by Python `str.strip()` / `str.split()` for the
characters that occur in this codebase. -/
def pyIsSpace (c : Char) : Bool :=
  c == ' ' || c == '\n' || c == '\t' || c == '\r'

/-- Python `str.strip()`: drop whitespace from both ends. -/
def pyStrip (s : List Char) : List Char :=
  ((s.dropWhile pyIsSpace).reverse.dropWhile pyIsSpace).reverse

/-- Python slice `text[start:stop]`. -/
def pySlice (t : List Char) (start stop : Nat) : List Char :=
  (t.drop start).take (stop - start)

/-- Python `"\n\n".join(blocks)`. -/
def pyJoin : List (List Char) → List Char
  | [] => []
  | [p] => p
  | p :: q :: rest => p ++ '\n' :: '\n' :: pyJoin (q :: rest)

/-- Python `text.rfind(' ', start, stop)`: the largest index `j` with
`start ≤ j < stop` and `text[j] = ' '`, if any (`-1` becomes `none`). -/
def pyRfindSpace (text : List Char) (start stop : Nat) : Option Nat :=
  (List.range' start (stop - start)).reverse.find? (fun i => decide (text.get? i = some ' '))

/-- Worker for Python `text.split("\n\n")`: leftmost, non-overlapping
occurrences of the two-character separator. -/
def splitSep2Go : List Char → List Char → List (List Char)
  | [], acc => [acc.reverse]
  | [c], acc => [(c :: acc).reverse]
  | c1 :: c2 :: rest, acc =>
    if c1 = '\n' ∧ c2 = '\n' then acc.reverse :: splitSep2Go rest []
    else splitSep2Go (c2 :: rest) (c1 :: acc)

/-- Worker for Python `str.split()` (no argument): split on runs of
whitespace, producing no empty fields. -/
def pySplitWsGo : List Char → List Char → List (List Char)
  | [], acc => if acc = [] then [] else [acc.reverse]
  | c :: rest, acc =>
    if pyIsSpace c then
      if acc = [] then pySplitWsGo rest [] else acc.reverse :: pySplitWsGo rest []
    else pySplitWsGo rest (c :: acc)

/-- Python `str.lower()` restricted to ASCII, as used on the CLI input. -/
def pyLower (t : List Char) : List Char := t.map Char.toLower

-- ============================================================
-- Segmentation Engine (chunker.py)
-- ============================================================

/-- `TextChunk` from chunker.py.  In the source `chunk_id` is the sha256
hexdigest of the UTF-8 bytes of `f"{source_name}:{page_number}:{text}"`;
the hash itself is not modelled, the stored id is that preimage string
(no claim depends on the hash value, only on its deterministic inputs). -/
structure TextChunk where
  chunk_id : List Char
  page_number : Nat
  text : List Char
  char_count : Nat
  source_name : List Char
deriving DecidableEq, Repr

/-- The three constructor parameters of `TextChunker`.  The constructor
additionally validates `overlap_chars < max_chars` (raising otherwise);
that contract appears as a hypothesis of the theorems below. -/
structure ChunkerConfig where
  max_chars : Nat
  overlap_chars : Nat
  min_chars : Nat
deriving DecidableEq, Repr

/-- `TextChunker._build_chunk`. -/
def buildChunk (text : List Char) (pageNumber : Nat) (sourceName : List Char) : TextChunk :=
  { chunk_id := sourceName ++ ':' :: (Nat.repr pageNumber).data ++ ':' :: text
  , page_number := pageNumber
  , text := text
  , char_count := text.length
  , source_name := sourceName }

/-- `TextChunker._commit_chunk`: validate the joined buffer and append it;
the Bool is the Python return value (True iff a chunk was appended). -/
def commitChunk (cfg : ChunkerConfig) (chunks : List TextChunk)
    (paragraphs : List (List Char)) (pageNumber : Nat) (sourceName : List Char) :
    List TextChunk × Bool :=
  if paragraphs = [] then (chunks, false)
  else if (pyJoin paragraphs).length < cfg.min_chars then (chunks, false)
  else (chunks ++ [buildChunk (pyJoin paragraphs) pageNumber sourceName], true)

/-- Loop body of `TextChunker._build_overlap`: walk the reversed committed
buffer, prepending whole paragraphs while the accumulated length (with the
2-character separators) stays within `overlap_chars`. -/
def buildOverlapGo (overlapChars : Nat) :
    List (List Char) → List (List Char) → Nat → List (List Char) × Nat
  | [], acc, len => (acc, len)
  | p :: ps, acc, len =>
    if overlapChars < len + (p.length + (if acc = [] then 0 else 2)) then (acc, len)
    else buildOverlapGo overlapChars ps (p :: acc) (len + (p.length + (if acc = [] then 0 else 2)))

/-- `TextChunker._build_overlap`. -/
def buildOverlap (cfg : ChunkerConfig) (paragraphs : List (List Char)) :
    List (List Char) × Nat :=
  buildOverlapGo cfg.overlap_chars paragraphs.reverse [] 0

/-- The window end of one iteration of `TextChunker._split_text_by_limit`:
`end = min(start + limit, len)`, moved back to the last space strictly
after `start` when the window does not already reach the end of the text. -/
def sliceEnd (text : List Char) (limit start : Nat) : Nat :=
  if min (start + limit) text.length < text.length then
    match pyRfindSpace text start (min (start + limit) text.length) with
    | some j => if start < j then j else min (start + limit) text.length
    | none => min (start + limit) text.length
  else min (start + limit) text.length

/-- The next window start of `TextChunker._split_text_by_limit`:
`end - overlap`, forced forward to `end` when that would not advance. -/
def nextStartFn (overlap start stop : Nat) : Nat :=
  if stop - overlap ≤ start then stop else stop - overlap

/-- Fuelled loop of `TextChunker._split_text_by_limit`; `none` means the
fuel ran out before the window start reached the end of the text. -/
def splitGo (text : List Char) (limit overlap : Nat) : Nat → Nat → Option (List (List Char))
  | 0, start => if start < text.length then none else some []
  | fuel+1, start =>
    if start < text.length then
      match splitGo text limit overlap fuel (nextStartFn overlap start (sliceEnd text limit start)) with
      | none => none
      | some rest =>
        some (if pyStrip (pySlice text start (sliceEnd text limit start)) = [] then rest
              else pyStrip (pySlice text start (sliceEnd text limit start)) :: rest)
    else some []

/-- `TextChunker._split_text_by_limit` with explicit fuel. -/
def splitTextByLimit (text : List Char) (limit overlap fuel : Nat) : Option (List (List Char)) :=
  splitGo text limit overlap fuel 0

/-- Fuelled `while i < len(paragraphs)` loop of
`TextChunker._chunk_single_page`.  State: paragraph index `i`, pending
buffer `cur`, its tracked length `clen`, and the emitted chunks.  One unit
of fuel is one loop iteration; `none` means the fuel ran out.  The forced
slicing of an oversized paragraph is given fuel `length + 1`, which is
always sufficient for a valid configuration (`overlap_chars < max_chars`). -/
def chunkLoop (cfg : ChunkerConfig) (pageNumber : Nat) (sourceName : List Char)
    (paragraphs : List (List Char)) :
    Nat → Nat → List (List Char) → Nat → List TextChunk → Option (List TextChunk)
  | 0, _, _, _, _ => none
  | fuel+1, i, cur, clen, chunks =>
    if h : i < paragraphs.length then
      if cfg.max_chars < (paragraphs.get ⟨i, h⟩).length then
        match splitTextByLimit (paragraphs.get ⟨i, h⟩) cfg.max_chars cfg.overlap_chars
            ((paragraphs.get ⟨i, h⟩).length + 1) with
        | none => none
        | some blocks =>
          chunkLoop cfg pageNumber sourceName paragraphs fuel (i+1) [] 0
            ((commitChunk cfg chunks cur pageNumber sourceName).1
              ++ blocks.map (fun b => buildChunk b pageNumber sourceName))
      else
        if clen + ((paragraphs.get ⟨i, h⟩).length + (if cur = [] then 0 else 2)) ≤ cfg.max_chars then
          chunkLoop cfg pageNumber sourceName paragraphs fuel (i+1)
            (cur ++ [paragraphs.get ⟨i, h⟩])
            (clen + ((paragraphs.get ⟨i, h⟩).length + (if cur = [] then 0 else 2))) chunks
        else
          if (commitChunk cfg chunks cur pageNumber sourceName).2 then
            chunkLoop cfg pageNumber sourceName paragraphs fuel i
              (buildOverlap cfg cur).1 (buildOverlap cfg cur).2
              (commitChunk cfg chunks cur pageNumber sourceName).1
          else
            chunkLoop cfg pageNumber sourceName paragraphs fuel i [] 0
              (commitChunk cfg chunks cur pageNumber sourceName).1
    else
      some (if cur = [] then chunks else (commitChunk cfg chunks cur pageNumber sourceName).1)

/-- `TextChunker._chunk_single_page` on an already split paragraph list. -/
def chunkSinglePageParas (cfg : ChunkerConfig) (paragraphs : List (List Char))
    (pageNumber : Nat) (sourceName : List Char) (fuel : Nat) : Option (List TextChunk) :=
  chunkLoop cfg pageNumber sourceName paragraphs fuel 0 [] 0 []

/-- `TextChunker._split_paragraphs`: split on `"\n\n"`, strip each piece,
keep the non-empty ones. -/
def splitParagraphs (text : List Char) : List (List Char) :=
  ((splitSep2Go text []).map pyStrip).filter (fun p => !p.isEmpty)

/-- `TextChunker._chunk_single_page` on raw page text. -/
def chunkSinglePage (cfg : ChunkerConfig) (pageText : List Char)
    (pageNumber : Nat) (sourceName : List Char) (fuel : Nat) : Option (List TextChunk) :=
  chunkSinglePageParas cfg (splitParagraphs pageText) pageNumber sourceName fuel

/-- `CleanedPageText` from cleaner.py. -/
structure CleanedPageText where
  page_number : Nat
  text : List Char
  original_char_count : Nat
  cleaned_char_count : Nat
deriving DecidableEq, Repr

/-- `TextChunker.chunk_pages`: concatenate the per-page chunk lists. -/
def chunkPages (cfg : ChunkerConfig) (pages : List CleanedPageText)
    (sourceName : List Char) (fuel : Nat) : Option (List TextChunk) :=
  pages.foldlM
    (fun acc page =>
      (chunkSinglePage cfg page.text page.page_number sourceName fuel).map (fun cs => acc ++ cs))
    []

-- ============================================================
-- Retrieval & Context-Assembly Engine (query_engine.py)
-- ============================================================

/-- A retrieval candidate: one payload dict returned by the Vector Store
search in query_engine.py.  `score` is the raw similarity (a float in the
source, modelled as `ℚ`); `rerank_score` is absent until the re-ranking
step writes it. -/
structure Candidate where
  chunk_id : List Char
  text : List Char
  score : ℚ
  rerank_score : Option ℚ := none
deriving DecidableEq, Repr

/-- The uncaught Python exceptions relevant to `QueryEngine._rerank_results`:
`KeyError` from `response.json()['scores']` and `IndexError` from
`scores[i]`. -/
inductive PyError where
  | keyError
  | indexError
deriving DecidableEq, Repr

/-- Outcome of the `requests.post` call to the re-ranking service.
`requestException` covers every raised `requests.RequestException`
(connection failure, timeout, and the HTTP-status errors raised by
`raise_for_status`).  `response b` is a successful response whose JSON
body has `b = some scores` under the key `'scores'`, or `b = none` when
that key is missing. -/
inductive RerankOutcome where
  | requestException
  | response (scoresField : Option (List ℚ))
deriving DecidableEq, Repr

/-- Stable insertion step for Python `sorted(key=k, reverse=True)`:
an element is placed before the first earlier-sorted element with a
strictly smaller key, so equal keys keep their original order. -/
def pyInsertDesc {α : Type} (k : α → ℚ) (x : α) : List α → List α
  | [] => [x]
  | y :: ys => if k y ≤ k x then x :: y :: ys else y :: pyInsertDesc k x ys

/-- Python `sorted(l, key=k, reverse=True)`: the stable descending sort by
key.  Python uses a different (equally stable) algorithm; stable sorting
by a total key order is extensionally unique, so this is faithful. -/
def pySortDesc {α : Type} (k : α → ℚ) : List α → List α
  | [] => []
  | x :: xs => pyInsertDesc k x (pySortDesc k xs)

/-- The `for i, res in enumerate(results): res['rerank_score'] = scores[i]`
loop: write the i-th score into the i-th candidate, raising `IndexError`
when the scores list is exhausted before the candidates are. -/
def assignScores : List Candidate → List ℚ → Except PyError (List Candidate)
  | [], _ => Except.ok []
  | _ :: _, [] => Except.error PyError.indexError
  | r :: rs, s :: ss =>
    match assignScores rs ss with
    | Except.error e => Except.error e
    | Except.ok rest => Except.ok ({ r with rerank_score := some s } :: rest)

/-- `QueryEngine._rerank_results`.  Only a raised
`requests.RequestException` is caught (fallback: stable sort by the raw
similarity score, descending); a successful response with a missing
`'scores'` key or too few scores raises through. -/
def rerankResults (results : List Candidate) (outcome : RerankOutcome) :
    Except PyError (List Candidate) :=
  match outcome with
  | RerankOutcome.requestException => Except.ok (pySortDesc (fun c => c.score) results)
  | RerankOutcome.response none => Except.error PyError.keyError
  | RerankOutcome.response (some scores) =>
    match assignScores results scores with
    | Except.error e => Except.error e
    | Except.ok updated => Except.ok (pySortDesc (fun c => c.rerank_score.getD 0) updated)

/-- Loop of `QueryEngine._post_process`: keep the first occurrence of each
`chunk_id`. -/
def dedupeGo : List Candidate → List (List Char) → List Candidate
  | [], _ => []
  | r :: rs, seen =>
    if r.chunk_id ∈ seen then dedupeGo rs seen
    else r :: dedupeGo rs (r.chunk_id :: seen)

/-- `QueryEngine._post_process`. -/
def postProcess (results : List Candidate) : List Candidate := dedupeGo results []

/-- The constructor parameters of `QueryEngine` that the embedded claims
depend on, with their source defaults. -/
structure QueryEngineCfg where
  top_k : Nat := 5
  score_threshold : ℚ := 3/10
  max_context_chars : Nat := 4000
deriving DecidableEq, Repr

/-- The candidate count requested from the Vector Store by
`QueryEngine.query` (line `initial_top_k = 20`): a hard-coded constant,
independent of the configured `top_k`. -/
def initialTopK (_cfg : QueryEngineCfg) : Nat := 20

/-- The collaborators of one `QueryEngine.query` invocation:
what the Vector Store search returns and how the re-ranking call ends.
The Embedder is modelled only through the recorded calls to it, since the
engine never inspects the returned vector itself. -/
structure QueryEnv where
  searchResults : List Candidate
  rerankOutcome : RerankOutcome
deriving DecidableEq, Repr

/-- The dict returned by `QueryEngine.query` (the `context_text` field is
assembled by `_build_context_text`, modelled separately below). -/
structure QueryOutput where
  question : List Char
  contexts : List Candidate
deriving DecidableEq, Repr

instance : DecidableEq (Except PyError QueryOutput)
  | Except.ok x, Except.ok y => decidable_of_iff (x = y) (by simp)
  | Except.ok _, Except.error _ => isFalse (by simp)
  | Except.error _, Except.ok _ => isFalse (by simp)
  | Except.error e, Except.error f => decidable_of_iff (e = f) (by simp)

/-- One `QueryEngine.query` run, with the calls made to the collaborators
recorded: which arguments `embed_query` received and which `top_k` values
were requested from the Vector Store. -/
structure QueryTrace where
  embedCalls : List (List Char)
  searchRequests : List Nat
  result : Except PyError QueryOutput
deriving DecidableEq, Repr

/-- `QueryEngine.query`.  Note that the question is embedded first,
unconditionally: the method itself performs no emptiness check on it. -/
def runQuery (cfg : QueryEngineCfg) (env : QueryEnv) (question : List Char) : QueryTrace :=
  if env.searchResults = [] then
    { embedCalls := [question], searchRequests := [initialTopK cfg]
    , result := Except.ok { question := question, contexts := [] } }
  else
    match rerankResults env.searchResults env.rerankOutcome with
    | Except.error e =>
      { embedCalls := [question], searchRequests := [initialTopK cfg]
      , result := Except.error e }
    | Except.ok reranked =>
      { embedCalls := [question], searchRequests := [initialTopK cfg]
      , result := Except.ok
          { question := question, contexts := postProcess (reranked.take cfg.top_k) } }

-- ============================================================
-- Context assembly (_build_context_text and run_search.py)
-- ============================================================

/-- One context dict as consumed by `QueryEngine._build_context_text`.
`page` and `scoreStr` hold the characters the f-string interpolates
(`page_number` or the default `"?"`, and the `:.2f` rendering of the float
score — float formatting itself is not modelled, only the resulting
characters); `hasRerank` is whether the dict carries a `rerank_score`
key. -/
structure CtxBlockInput where
  text : List Char
  page : List Char
  fileName : List Char
  scoreStr : List Char
  hasRerank : Bool
deriving DecidableEq, Repr

/-- The header f-string of `_build_context_text`. -/
def ctxHeader (c : CtxBlockInput) : List Char :=
  "### Fonte: ".data ++ c.fileName ++ " | Página ".data ++ c.page ++ " | ".data
    ++ (if c.hasRerank then "Relevância".data else "Similaridade".data)
    ++ ": ".data ++ c.scoreStr

/-- The block f-string `f"{header}\n{text}"` (with the stripped text). -/
def ctxBlockOf (c : CtxBlockInput) : List Char :=
  ctxHeader c ++ '\n' :: pyStrip c.text

/-- The intro line appended to `blocks` before the loop, and counted into
`total_chars`, without any budget check. -/
def introText : List Char := "Contexto recuperado dos documentos:\n".data

/-- Loop of `QueryEngine._build_context_text`: skip empty texts, stop at
the first block whose length would push the running character total past
`max_context_chars`. -/
def buildCtxGo (maxContextChars : Nat) :
    List CtxBlockInput → List (List Char) → Nat → List (List Char) × Nat
  | [], blocks, total => (blocks, total)
  | c :: rest, blocks, total =>
    if pyStrip c.text = [] then buildCtxGo maxContextChars rest blocks total
    else
      if maxContextChars < total + (ctxBlockOf c).length then (blocks, total)
      else buildCtxGo maxContextChars rest (blocks ++ [ctxBlockOf c]) (total + (ctxBlockOf c).length)

/-- `QueryEngine._build_context_text`. -/
def buildContextText (maxContextChars : Nat) (contexts : List CtxBlockInput) : List Char :=
  pyJoin (buildCtxGo maxContextChars contexts [introText] introText.length).1

/-- The final `total_chars` of `_build_context_text`: the code's running
length estimate of the assembled context. -/
def buildContextTotal (maxContextChars : Nat) (contexts : List CtxBlockInput) : Nat :=
  (buildCtxGo maxContextChars contexts [introText] introText.length).2

/-- `estimate_tokens` from run_search.py: whitespace-delimited word count
(`len(text.split())`; the `if not text` guard returns 0, which agrees). -/
def estimateTokens (t : List Char) : Nat := (pySplitWsGo t []).length

/-- One context dict as consumed by `truncate_context_by_budget`
(`item.get("text", "")` and the rendered `item.get("page_number", "?")`). -/
structure RunItem where
  text : List Char
  page : List Char
deriving DecidableEq, Repr

/-- The formatted block `f"--- [Página {page}] ---\n{text}"`. -/
def runItemBlock (it : RunItem) : List Char :=
  "--- [Página ".data ++ it.page ++ "] ---\n".data ++ it.text

/-- Loop of `truncate_context_by_budget` from run_search.py. -/
def truncGo (maxTokens : Nat) :
    List RunItem → List (List Char) → Nat → List (List Char) × Nat
  | [], sel, used => (sel, used)
  | it :: rest, sel, used =>
    if maxTokens < used + estimateTokens (runItemBlock it) then (sel, used)
    else truncGo maxTokens rest (sel ++ [runItemBlock it]) (used + estimateTokens (runItemBlock it))

/-- `truncate_context_by_budget` from run_search.py. -/
def truncateContextByBudget (maxTokens : Nat) (items : List RunItem) : List Char :=
  pyJoin (truncGo maxTokens items [] 0).1

-- ============================================================
-- CLI driver loop (run_search.py main)
-- ============================================================

/-- The exit commands checked (lower-cased) by the `main` loop. -/
def exitWords : List (List Char) := ["sair".data, "exit".data, "quit".data]

/-- What one iteration of the `main` conversation loop does with a raw
input line, up to the point where `query_engine.query` would run. -/
inductive DriverStep where
  | exited
  | skipped
  | answered (t : QueryTrace)
deriving DecidableEq, Repr

/-- One iteration of the `main` loop of run_search.py: strip the input,
exit on the quit words, `continue` (never calling the Query Engine) on an
empty question, otherwise invoke `QueryEngine.query`. -/
def mainLoopStep (cfg : QueryEngineCfg) (env : QueryEnv) (rawInput : List Char) : DriverStep :=
  if pyLower (pyStrip rawInput) ∈ exitWords then DriverStep.exited
  else if pyStrip rawInput = [] then DriverStep.skipped
  else DriverStep.answered (runQuery cfg env (pyStrip rawInput))

-- ============================================================
-- Concrete instances used by several claims
-- ============================================================

/-- The test configuration of the repository's chunker tests:
`max_chars = 100, overlap_chars = 30, min_chars = 20`. -/
def cfgT : ChunkerConfig := ⟨100, 30, 20⟩

/-- A page with a 30-character paragraph followed by a 90-character one. -/
def parasLoop : List (List Char) := [List.replicate 30 'a', List.replicate 90 'b']

/-- The four 30-character paragraphs of the overlap example. -/
def paras5 : List (List Char) :=
  [List.replicate 30 'a', List.replicate 30 'b', List.replicate 30 'c', List.replicate 30 'd']

/-- The default `QueryEngine` configuration. -/
def cfgQ : QueryEngineCfg := {}

/-- A `QueryEngine` configured with `top_k = 100`. -/
def cfgQ100 : QueryEngineCfg := { top_k := 100 }

/-- A query environment: Vector Store finds nothing, re-ranker down. -/
def envEmpty : QueryEnv := ⟨[], RerankOutcome.requestException⟩

/-- A minimal retrieval candidate. -/
def cand1 : Candidate := { chunk_id := "c1".data, text := "t".data, score := 1 }

-- ============================================================
-- Lemmas on the string primitives
-- ============================================================

theorem pyStrip_length_le (s : List Char) : (pyStrip s).length ≤ s.length := by
  unfold pyStrip
  have h1 : (s.dropWhile pyIsSpace).length ≤ s.length :=
    (List.dropWhile_sublist _).length_le
  have h2 : ((s.dropWhile pyIsSpace).reverse.dropWhile pyIsSpace).length ≤
      (s.dropWhile pyIsSpace).reverse.length :=
    (List.dropWhile_sublist _).length_le
  simp only [List.length_reverse] at h2 ⊢
  omega

theorem pySlice_length_le (t : List Char) (s e : Nat) : (pySlice t s e).length ≤ e - s := by
  unfold pySlice
  exact le_trans (List.length_take_le _ _) (Nat.le_refl _)

theorem pyRfindSpace_eq_some (text : List Char) (s e j : Nat)
    (h : pyRfindSpace text s e = some j) : s ≤ j ∧ j < e := by
  unfold pyRfindSpace at h
  have hm := List.mem_of_find?_eq_some h
  rw [List.mem_reverse] at hm
  have hb := List.mem_range'_1.mp hm
  omega

theorem pyJoin_cons (p : List Char) (ps : List (List Char)) (h : ps ≠ []) :
    pyJoin (p :: ps) = p ++ '\n' :: '\n' :: pyJoin ps := by
  cases ps with
  | nil => exact absurd rfl h
  | cons q rest => rfl

theorem pyJoin_cons_length (p : List Char) (ps : List (List Char)) :
    (pyJoin (p :: ps)).length = p.length + (if ps = [] then 0 else 2) + (pyJoin ps).length := by
  cases ps with
  | nil => simp [pyJoin]
  | cons q rest => simp [pyJoin_cons p (q :: rest) (by simp), List.length_append]; omega

theorem pyJoin_concat_length (ps : List (List Char)) (p : List Char) :
    (pyJoin (ps ++ [p])).length =
      (pyJoin ps).length + (p.length + (if ps = [] then 0 else 2)) := by
  induction ps with
  | nil => simp [pyJoin]
  | cons q rest ih =>
    rw [List.cons_append, pyJoin_cons_length, pyJoin_cons_length q rest, ih]
    cases rest with
    | nil => simp [pyJoin]; omega
    | cons r rs => simp; omega

-- ============================================================
-- Forced slicing: termination and bounds (C3 groundwork)
-- ============================================================

theorem sliceEnd_le (text : List Char) (limit start : Nat) :
    sliceEnd text limit start ≤ start + limit := by
  have hmin : min (start + limit) text.length ≤ start + limit := Nat.min_le_left _ _
  unfold sliceEnd
  split
  · split
    next j hj =>
      have hb := pyRfindSpace_eq_some text start _ j hj
      split
      · omega
      · omega
    next => omega
  · omega

theorem sliceEnd_gt (text : List Char) (limit start : Nat) (hl : 1 ≤ limit)
    (hs : start < text.length) : start < sliceEnd text limit start := by
  have hmin : start + 1 ≤ min (start + limit) text.length := le_min (by omega) (by omega)
  unfold sliceEnd
  split
  · split
    next j hj =>
      split
      · assumption
      · omega
    next => omega
  · omega

theorem nextStartFn_gt (overlap start stop : Nat) (h : start < stop) :
    start < nextStartFn overlap start stop := by
  unfold nextStartFn
  split
  · exact h
  · omega

theorem splitGo_spec (text : List Char) (limit overlap : Nat) (hl : 1 ≤ limit) :
    ∀ fuel start, text.length - start < fuel →
      ∃ blocks, splitGo text limit overlap fuel start = some blocks ∧
        ∀ b ∈ blocks, b.length ≤ limit := by
  intro fuel
  induction fuel with
  | zero => intro start h; exact absurd h (Nat.not_lt_zero _)
  | succ n ih =>
    intro start h
    by_cases hs : start < text.length
    · have he : start < sliceEnd text limit start := sliceEnd_gt text limit start hl hs
      have hnext : start < nextStartFn overlap start (sliceEnd text limit start) :=
        nextStartFn_gt _ _ _ he
      have h2 : text.length - nextStartFn overlap start (sliceEnd text limit start) < n := by
        omega
      obtain ⟨blocks, hb, hlen⟩ := ih _ h2
      have hblock : (pyStrip (pySlice text start (sliceEnd text limit start))).length ≤ limit := by
        have t1 := pyStrip_length_le (pySlice text start (sliceEnd text limit start))
        have t2 := pySlice_length_le text start (sliceEnd text limit start)
        have t3 := sliceEnd_le text limit start
        omega
      refine ⟨if pyStrip (pySlice text start (sliceEnd text limit start)) = [] then blocks
              else pyStrip (pySlice text start (sliceEnd text limit start)) :: blocks, ?_, ?_⟩
      · simp only [splitGo, if_pos hs, hb]
      · intro b hbm
        split at hbm
        · exact hlen b hbm
        · rcases List.mem_cons.mp hbm with rfl | hbm2
          · exact hblock
          · exact hlen b hbm2
    · exact ⟨[], by simp [splitGo, hs], by simp⟩

set_option maxRecDepth 20000 in
/-- C3: for every non-empty text, any `limit ≥ 1` and any overlap, the
forced-slice loop `_split_text_by_limit` terminates (fuel `length + 1`
iterations suffice) and every returned slice has length at most `limit`;
the degenerate guard strictly advances the window start whenever the
window is non-degenerate (`start < end`); and the concrete case of a
single 150-character paragraph with `max_chars = 100, overlap_chars = 30`
yields exactly the three slices of lengths 100, 80 and 30. -/
theorem forced_slice_terminates_and_bounded :
    (∀ (text : List Char) (limit overlap : Nat), 1 ≤ limit →
      ∃ blocks, splitTextByLimit text limit overlap (text.length + 1) = some blocks ∧
        ∀ b ∈ blocks, b.length ≤ limit) ∧
    (∀ (overlap start stop : Nat), start < stop → start < nextStartFn overlap start stop) ∧
    (splitTextByLimit (List.replicate 150 'a') 100 30 151).map (fun bs => bs.map List.length) =
      some [100, 80, 30] := by
  refine ⟨?_, nextStartFn_gt, by decide⟩
  intro text limit overlap hl
  exact splitGo_spec text limit overlap hl (text.length + 1) 0 (by omega)

/-- Witness for C3 at a concrete input: a 5-character text with
`limit = 2`, `overlap = 1`, and the degenerate guard at `start = 0`,
`end = 2`. -/
theorem forced_slice_terminates_and_bounded_witness :
    (∃ blocks, splitTextByLimit (List.replicate 5 'a') 2 1 6 = some blocks ∧
      ∀ b ∈ blocks, b.length ≤ 2) ∧ 0 < nextStartFn 1 0 2 :=
  ⟨forced_slice_terminates_and_bounded.1 (List.replicate 5 'a') 2 1 (by decide),
   forced_slice_terminates_and_bounded.2.1 1 0 2 (by decide)⟩

-- ============================================================
-- Chunker invariants (C4 groundwork)
-- ============================================================

theorem commitChunk_mem (cfg : ChunkerConfig) (chunks : List TextChunk)
    (cur : List (List Char)) (page : Nat) (src : List Char) (c : TextChunk)
    (hc : c ∈ (commitChunk cfg chunks cur page src).1)
    (hP : ∀ d ∈ chunks, d.char_count = d.text.length ∧ d.char_count ≤ cfg.max_chars)
    (hlen : (pyJoin cur).length ≤ cfg.max_chars) :
    c.char_count = c.text.length ∧ c.char_count ≤ cfg.max_chars := by
  unfold commitChunk at hc
  split at hc
  · exact hP c hc
  · split at hc
    · exact hP c hc
    · rcases List.mem_append.mp hc with hm | hm
      · exact hP c hm
      · rcases List.mem_singleton.mp hm with rfl
        exact ⟨rfl, hlen⟩

theorem buildOverlapGo_spec (ov : Nat) :
    ∀ (ps acc : List (List Char)) (len : Nat),
      len = (pyJoin acc).length → len ≤ ov →
      (buildOverlapGo ov ps acc len).2 = (pyJoin (buildOverlapGo ov ps acc len).1).length ∧
      (buildOverlapGo ov ps acc len).2 ≤ ov := by
  intro ps
  induction ps with
  | nil =>
    intro acc len h1 h2
    simp only [buildOverlapGo]
    exact ⟨h1, h2⟩
  | cons p ps ih =>
    intro acc len h1 h2
    simp only [buildOverlapGo]
    by_cases hc : ov < len + (p.length + (if acc = [] then 0 else 2))
    · rw [if_pos hc]
      exact ⟨h1, h2⟩
    · rw [if_neg hc]
      apply ih
      · rw [pyJoin_cons_length]; omega
      · omega

theorem buildOverlap_spec (cfg : ChunkerConfig) (cur : List (List Char)) :
    (buildOverlap cfg cur).2 = (pyJoin (buildOverlap cfg cur).1).length ∧
    (buildOverlap cfg cur).2 ≤ cfg.overlap_chars := by
  unfold buildOverlap
  exact buildOverlapGo_spec cfg.overlap_chars cur.reverse [] 0 (by simp [pyJoin]) (Nat.zero_le _)

theorem chunkLoop_invariant (cfg : ChunkerConfig) (hvalid : cfg.overlap_chars < cfg.max_chars)
    (page : Nat) (src : List Char) (paras : List (List Char)) :
    ∀ (fuel i : Nat) (cur : List (List Char)) (clen : Nat)
      (chunks out : List TextChunk),
      clen = (pyJoin cur).length → clen ≤ cfg.max_chars →
      (∀ c ∈ chunks, c.char_count = c.text.length ∧ c.char_count ≤ cfg.max_chars) →
      chunkLoop cfg page src paras fuel i cur clen chunks = some out →
      ∀ c ∈ out, c.char_count = c.text.length ∧ c.char_count ≤ cfg.max_chars := by
  intro fuel
  induction fuel with
  | zero =>
    intro i cur clen chunks out _ _ _ hrun
    simp [chunkLoop] at hrun
  | succ n ih =>
    intro i cur clen chunks out h1 h2 h3 hrun
    simp only [chunkLoop] at hrun
    split at hrun
    next h =>
      split at hrun
      next hg =>
        split at hrun
        next heq => exact absurd hrun (by simp)
        next blocks heq =>
          apply ih _ _ _ _ out (by simp [pyJoin]) (Nat.zero_le _) ?_ hrun
          intro c hc
          rcases List.mem_append.mp hc with hcm | hcm
          · exact commitChunk_mem cfg chunks cur page src c hcm h3 (by omega)
          · obtain ⟨b, hbm, rfl⟩ := List.mem_map.mp hcm
            refine ⟨rfl, ?_⟩
            have hl : 1 ≤ cfg.max_chars := by omega
            obtain ⟨blocks2, hb2, hlen2⟩ :=
              splitGo_spec (paras.get ⟨i, h⟩) cfg.max_chars cfg.overlap_chars hl
                ((paras.get ⟨i, h⟩).length + 1) 0 (by omega)
            rw [splitTextByLimit] at heq
            rw [heq] at hb2
            rcases Option.some.inj hb2 with rfl
            exact hlen2 b hbm
      next hg =>
        by_cases hfits :
            clen + ((paras.get ⟨i, h⟩).length + (if cur = [] then 0 else 2)) ≤ cfg.max_chars
        · rw [if_pos hfits] at hrun
          refine ih _ _ _ _ out ?_ ?_ h3 hrun
          · rw [pyJoin_concat_length]; omega
          · exact hfits
        · rw [if_neg hfits] at hrun
          by_cases hcom : (commitChunk cfg chunks cur page src).2 = true
          · rw [if_pos hcom] at hrun
            refine ih _ _ _ _ out (buildOverlap_spec cfg cur).1
              (le_of_lt (lt_of_le_of_lt (buildOverlap_spec cfg cur).2 hvalid)) ?_ hrun
            intro c hc
            exact commitChunk_mem cfg chunks cur page src c hc h3 (by omega)
          · rw [if_neg hcom] at hrun
            refine ih _ _ _ _ out (by simp [pyJoin]) (Nat.zero_le _) ?_ hrun
            intro c hc
            exact commitChunk_mem cfg chunks cur page src c hc h3 (by omega)
    next h =>
      rcases Option.some.inj hrun with rfl
      intro c hc
      split at hc
      · exact h3 c hc
      · exact commitChunk_mem cfg chunks cur page src c hc h3 (by omega)

/-- C4: for a valid configuration (`overlap_chars < max_chars`), every
chunk produced by a `_chunk_single_page` run satisfies
`char_count = len(text)` and `char_count ≤ max_chars`; and every chunk
appended by `_commit_chunk` (the committed, non-forced-slice chunks)
additionally has `char_count ≥ min_chars`. -/
theorem chunk_invariant_bounds :
    ∀ (cfg : ChunkerConfig), cfg.overlap_chars < cfg.max_chars →
      (∀ (paras : List (List Char)) (page : Nat) (src : List Char) (fuel : Nat)
          (out : List TextChunk),
        chunkSinglePageParas cfg paras page src fuel = some out →
        ∀ c ∈ out, c.char_count = c.text.length ∧ c.char_count ≤ cfg.max_chars) ∧
      (∀ (chunks : List TextChunk) (paras : List (List Char)) (page : Nat)
          (src : List Char) (res : List TextChunk),
        commitChunk cfg chunks paras page src = (res, true) →
        ∃ c, res = chunks ++ [c] ∧ c.char_count = c.text.length ∧
          cfg.min_chars ≤ c.char_count) := by
  intro cfg hvalid
  constructor
  · intro paras page src fuel out hrun
    exact chunkLoop_invariant cfg hvalid page src paras fuel 0 [] 0 [] out
      (by simp [pyJoin]) (Nat.zero_le _) (by simp) hrun
  · intro chunks paras page src res hc
    unfold commitChunk at hc
    split at hc
    · simp at hc
    · split at hc
      next hshort => simp at hc
      next hshort =>
        injection hc with h5 h6
        refine ⟨buildChunk (pyJoin paras) page src, h5.symm, rfl, ?_⟩
        exact Nat.le_of_not_lt hshort

/-- The source name used by the concrete examples. -/
def srcDoc : List Char := "doc".data

/-- One committed 30-character chunk, used as the C4 witness instance. -/
def chunkWit : TextChunk := buildChunk (List.replicate 30 'a') 1 srcDoc

/-- Witness for C4: a concrete single-paragraph page under the test
configuration, and the concrete commit that produced its chunk. -/
theorem chunk_invariant_bounds_witness :
    (chunkWit.char_count = chunkWit.text.length ∧ chunkWit.char_count ≤ cfgT.max_chars) ∧
    ∃ c, [chunkWit] = [] ++ [c] ∧ c.char_count = c.text.length ∧
      cfgT.min_chars ≤ c.char_count := by
  constructor
  · exact (chunk_invariant_bounds cfgT (by decide)).1 [List.replicate 30 'a'] 1 srcDoc 3
      [chunkWit] (by decide) chunkWit (by simp)
  · exact (chunk_invariant_bounds cfgT (by decide)).2 [] [List.replicate 30 'a'] 1 srcDoc
      [chunkWit] (by decide)

-- ============================================================
-- C1: the overlap retry can repeat a buffer state forever
-- ============================================================

/-- If at paragraph `i` the buffer overflows, commits, and the overlap
seed rebuilt from the committed buffer is that very buffer again (with the
same tracked length), the loop re-enters the identical state: it never
terminates, for any amount of fuel. -/
theorem chunkLoop_stuck (cfg : ChunkerConfig) (page : Nat) (src : List Char)
    (paras : List (List Char)) (i : Nat) (cur : List (List Char)) (clen : Nat)
    (h : i < paras.length)
    (hng : ¬ cfg.max_chars < (paras.get ⟨i, h⟩).length)
    (hov : ¬ clen + ((paras.get ⟨i, h⟩).length + (if cur = [] then 0 else 2)) ≤ cfg.max_chars)
    (hcur : ¬ cur = []) (hmin : ¬ (pyJoin cur).length < cfg.min_chars)
    (hfix : buildOverlap cfg cur = (cur, clen)) :
    ∀ (fuel : Nat) (chunks : List TextChunk),
      chunkLoop cfg page src paras fuel i cur clen chunks = none := by
  intro fuel
  induction fuel with
  | zero => intro chunks; rfl
  | succ n ihn =>
    intro chunks
    have hc : commitChunk cfg chunks cur page src =
        (chunks ++ [buildChunk (pyJoin cur) page src], true) := by
      unfold commitChunk
      rw [if_neg hcur, if_neg hmin]
    simp only [chunkLoop]
    rw [dif_pos h, if_neg hng, if_neg hov, hc, hfix]
    simp only [if_pos rfl]
    exact ihn _

/-- C1 (refuted): with the repository's own test configuration
(`max_chars = 100, overlap_chars = 30, min_chars = 20`, a valid
configuration), the page consisting of a 30-character paragraph followed
by a 90-character paragraph makes the `_chunk_single_page` loop run
forever: after the first commit the overlap seed equals the committed
buffer, the index does not advance, and the identical buffer state
recurs on every iteration.  The fuelled embedding returns `none` (fuel
exhausted) for EVERY fuel value. -/
theorem chunker_page_loop_nonterminating :
    ∀ fuel : Nat, chunkSinglePageParas cfgT parasLoop 1 srcDoc fuel = none := by
  have hstuck := chunkLoop_stuck cfgT 1 srcDoc parasLoop 1 [List.replicate 30 'a'] 30
    (by decide) (by decide) (by decide) (by decide) (by decide) (by decide)
  intro fuel
  cases fuel with
  | zero => rfl
  | succ n =>
    have hstep : chunkSinglePageParas cfgT parasLoop 1 srcDoc (n+1) =
        chunkLoop cfgT 1 srcDoc parasLoop n 1 [List.replicate 30 'a'] 30 [] := rfl
    rw [hstep]
    exact hstuck n []

-- ============================================================
-- C5: the four-paragraph overlap example
-- ============================================================

set_option maxRecDepth 20000 in
/-- C5: on a page whose paragraphs are four 30-character paragraphs, with
`max_chars = 100, overlap_chars = 30, min_chars = 20`, the engine yields
exactly 2 chunks: paragraphs 1–3 joined, then paragraphs 3–4 joined
(paragraph 3 repeated as the whole-paragraph overlap seed). -/
theorem overlap_example_two_chunks :
    (chunkSinglePageParas cfgT paras5 1 srcDoc 10).map (fun cs => cs.map (fun c => c.text)) =
      some [pyJoin [List.replicate 30 'a', List.replicate 30 'b', List.replicate 30 'c'],
            pyJoin [List.replicate 30 'c', List.replicate 30 'd']] := by decide

-- ============================================================
-- C9: a dropped buffer carries nothing forward
-- ============================================================

/-- C9: when the buffer overflows at paragraph `i` and is dropped for
being under `min_chars`, nothing is emitted and the loop continues at the
same paragraph with an EMPTY buffer: the rest of the run is literally the
run from the empty-buffer state, so no overlap seed (and no text of the
dropped paragraphs) carries across the discard. -/
theorem discard_resets_buffer
    (cfg : ChunkerConfig) (page : Nat) (src : List Char) (paras : List (List Char))
    (fuel i : Nat) (cur : List (List Char)) (clen : Nat) (chunks : List TextChunk)
    (h : i < paras.length)
    (hng : ¬ cfg.max_chars < (paras.get ⟨i, h⟩).length)
    (hov : ¬ clen + ((paras.get ⟨i, h⟩).length + (if cur = [] then 0 else 2)) ≤ cfg.max_chars)
    (hmin : (pyJoin cur).length < cfg.min_chars) :
    chunkLoop cfg page src paras (fuel+1) i cur clen chunks =
      chunkLoop cfg page src paras fuel i [] 0 chunks ∧
    commitChunk cfg chunks cur page src = (chunks, false) := by
  have hc : commitChunk cfg chunks cur page src = (chunks, false) := by
    unfold commitChunk
    split <;> simp [hmin]
  refine ⟨?_, hc⟩
  simp only [chunkLoop]
  rw [dif_pos h, if_neg hng, if_neg hov, hc]
  simp

/-- The paragraphs of the C9 witness: a 10-character paragraph (an
under-`min_chars` buffer) followed by a 95-character one that overflows
it. -/
def parasC9 : List (List Char) := [List.replicate 10 'a', List.replicate 95 'b']

/-- Witness for C9 at a concrete discard point. -/
theorem discard_resets_buffer_witness :
    chunkLoop cfgT 1 srcDoc parasC9 5 1 [List.replicate 10 'a'] 10 [] =
      chunkLoop cfgT 1 srcDoc parasC9 4 1 [] 0 [] ∧
    commitChunk cfgT [] [List.replicate 10 'a'] 1 srcDoc = ([], false) :=
  discard_resets_buffer cfgT 1 srcDoc parasC9 4 1 [List.replicate 10 'a'] 10 []
    (by decide) (by decide) (by decide) (by decide)

-- ============================================================
-- Stable descending sort: permutation and sortedness
-- ============================================================

theorem pyInsertDesc_perm {α : Type} (k : α → ℚ) (x : α) (l : List α) :
    (pyInsertDesc k x l).Perm (x :: l) := by
  induction l with
  | nil => exact List.Perm.refl _
  | cons y ys ih =>
    simp only [pyInsertDesc]
    split
    · exact List.Perm.refl _
    · exact (List.Perm.cons y ih).trans (List.Perm.swap x y ys)

theorem pySortDesc_perm {α : Type} (k : α → ℚ) (l : List α) :
    (pySortDesc k l).Perm l := by
  induction l with
  | nil => exact List.Perm.refl _
  | cons x xs ih => exact (pyInsertDesc_perm k x _).trans (List.Perm.cons x ih)

theorem pyInsertDesc_pairwise {α : Type} (k : α → ℚ) (x : α) (l : List α)
    (hl : l.Pairwise (fun a b => k b ≤ k a)) :
    (pyInsertDesc k x l).Pairwise (fun a b => k b ≤ k a) := by
  induction l with
  | nil => simp [pyInsertDesc]
  | cons y ys ih =>
    rcases List.pairwise_cons.mp hl with ⟨hy, hys⟩
    simp only [pyInsertDesc]
    split
    next hxy =>
      refine List.pairwise_cons.mpr ⟨?_, hl⟩
      intro z hz
      rcases List.mem_cons.mp hz with rfl | hz2
      · exact hxy
      · exact le_trans (hy z hz2) hxy
    next hxy =>
      refine List.pairwise_cons.mpr ⟨?_, ih hys⟩
      intro z hz
      have hmem := (pyInsertDesc_perm k x ys).mem_iff.mp hz
      rcases List.mem_cons.mp hmem with rfl | hz2
      · exact le_of_not_le hxy
      · exact hy z hz2

theorem pySortDesc_pairwise {α : Type} (k : α → ℚ) (l : List α) :
    (pySortDesc k l).Pairwise (fun a b => k b ≤ k a) := by
  induction l with
  | nil => simp [pySortDesc]
  | cons x xs ih => exact pyInsertDesc_pairwise k x _ ih

-- ============================================================
-- C6: graceful re-ranking fallback
-- ============================================================

/-- C6: when the re-ranking HTTP call raises (`requests.RequestException`,
covering failures and timeouts), `_rerank_results` returns — it does not
raise — and its output is exactly the original candidates stably sorted by
the raw similarity `score`, descending (a permutation of the input,
pairwise non-increasing in `score`); lifted through `query`, the query
succeeds and its contexts are the deduplicated, truncated prefix of that
similarity-sorted ordering. -/
theorem rerank_failure_fallback_ordering :
    (∀ results : List Candidate,
        rerankResults results RerankOutcome.requestException =
          Except.ok (pySortDesc (fun c => c.score) results)) ∧
    (∀ results : List Candidate,
        (pySortDesc (fun c => c.score) results).Perm results ∧
        (pySortDesc (fun c => c.score) results).Pairwise (fun a b => b.score ≤ a.score)) ∧
    (∀ (cfg : QueryEngineCfg) (searchResults : List Candidate) (question : List Char),
        (runQuery cfg ⟨searchResults, RerankOutcome.requestException⟩ question).result =
          Except.ok
            { question := question
            , contexts :=
                postProcess ((pySortDesc (fun c => c.score) searchResults).take cfg.top_k) }) := by
  refine ⟨fun results => rfl,
    fun results => ⟨pySortDesc_perm _ _, pySortDesc_pairwise _ _⟩, ?_⟩
  intro cfg rs q
  by_cases h : rs = []
  · subst h
    simp [runQuery, postProcess, dedupeGo, pySortDesc]
  · simp only [runQuery]
    rw [if_neg h]
    rfl

-- ============================================================
-- C10: only RequestException triggers the fallback
-- ============================================================

/-- C10: a successful re-ranking response whose JSON body lacks the
`'scores'` key makes `_rerank_results` raise `KeyError`, and one with
fewer scores than submitted documents makes it raise `IndexError`; neither
falls back to similarity ordering — only a raised
`requests.RequestException` does. -/
theorem rerank_malformed_response_raises :
    (∀ results : List Candidate,
        rerankResults results (RerankOutcome.response none) =
          Except.error PyError.keyError) ∧
    (∀ (results : List Candidate) (scores : List ℚ), scores.length < results.length →
        rerankResults results (RerankOutcome.response (some scores)) =
          Except.error PyError.indexError) ∧
    (∀ results : List Candidate,
        rerankResults results RerankOutcome.requestException =
          Except.ok (pySortDesc (fun c => c.score) results)) := by
  refine ⟨fun results => rfl, ?_, fun results => rfl⟩
  have hassign : ∀ (rs : List Candidate) (ss : List ℚ), ss.length < rs.length →
      assignScores rs ss = Except.error PyError.indexError := by
    intro rs
    induction rs with
    | nil => intro ss h; exact absurd h (by simp)
    | cons r rs ih =>
      intro ss h
      cases ss with
      | nil => rfl
      | cons s ss2 =>
        simp only [assignScores]
        rw [ih ss2 (by simpa using h)]
  intro results scores hlt
  simp only [rerankResults]
  rw [hassign results scores hlt]

/-- Witness for C10: a one-candidate list against a response with no
`'scores'` key, and against a response with an empty scores list. -/
theorem rerank_malformed_response_raises_witness :
    rerankResults [cand1] (RerankOutcome.response none) = Except.error PyError.keyError ∧
    rerankResults [cand1] (RerankOutcome.response (some [])) =
      Except.error PyError.indexError :=
  ⟨rerank_malformed_response_raises.1 [cand1],
   rerank_malformed_response_raises.2.1 [cand1] [] (by decide)⟩

-- ============================================================
-- C7: the initial search width is a hard-coded 20
-- ============================================================

/-- C7 (refuted at `top_k = 100`): the initial Vector Store request is the
hard-coded `initial_top_k = 20`, not four times the configured `top_k`
(for `top_k = 100` it would have to be 400). -/
theorem funnel_width_counterexample :
    (runQuery cfgQ100 envEmpty []).searchRequests = [20] ∧
    4 * cfgQ100.top_k = 400 ∧ ¬ ((20 : Nat) = 4 * cfgQ100.top_k) := by decide

/-- C7 (amended): `query` always requests exactly 20 initial candidates
from the Vector Store, independent of `top_k` (re-ranking is always
attempted, there is no enable flag); this coincides with 4 × `top_k`
exactly for the default `top_k = 5`. -/
theorem funnel_requests_fixed_twenty :
    ∀ (cfg : QueryEngineCfg) (env : QueryEnv) (question : List Char),
      (runQuery cfg env question).searchRequests = [initialTopK cfg] ∧
      initialTopK cfg = 20 ∧
      (cfg.top_k = 5 → initialTopK cfg = 4 * cfg.top_k) := by
  intro cfg env q
  refine ⟨?_, rfl, fun h => by rw [h]; rfl⟩
  simp only [runQuery]
  split
  · rfl
  · split <;> rfl

/-- Witness for C7's amended statement at the default configuration. -/
theorem funnel_requests_fixed_twenty_witness :
    (runQuery cfgQ envEmpty []).searchRequests = [initialTopK cfgQ] ∧
    initialTopK cfgQ = 20 ∧ initialTopK cfgQ = 4 * cfgQ.top_k :=
  ⟨(funnel_requests_fixed_twenty cfgQ envEmpty []).1,
   (funnel_requests_fixed_twenty cfgQ envEmpty []).2.1,
   (funnel_requests_fixed_twenty cfgQ envEmpty []).2.2 rfl⟩

-- ============================================================
-- C8: the blank-question guard lives in the CLI driver
-- ============================================================

/-- C8 (refuted): `QueryEngine.query` performs no emptiness check of its
own: called with the empty question, it still invokes `embed_query`, with
the empty question as the argument. -/
theorem empty_question_embedded_counterexample :
    (runQuery cfgQ envEmpty []).embedCalls = [([] : List Char)] := rfl

/-- C8 (amended): the blank-question rejection happens one layer up:
`run_search.main` strips the input line and `continue`s on an empty
question before ever calling the Query Engine, whereas `QueryEngine.query`
itself always calls `embed_query` with exactly the question it was
given (empty or not). -/
theorem empty_question_rejected_in_driver :
    (∀ (cfg : QueryEngineCfg) (env : QueryEnv) (question : List Char),
        (runQuery cfg env question).embedCalls = [question]) ∧
    (∀ (cfg : QueryEngineCfg) (env : QueryEnv) (raw : List Char), pyStrip raw = [] →
        mainLoopStep cfg env raw = DriverStep.skipped) := by
  constructor
  · intro cfg env q
    simp only [runQuery]
    split
    · rfl
    · split <;> rfl
  · intro cfg env raw h
    simp only [mainLoopStep]
    rw [h, if_neg (by decide : ¬ pyLower ([] : List Char) ∈ exitWords), if_pos rfl]

/-- Witness for C8's amended statement: a one-character question is
embedded verbatim; a blank input line is skipped by the driver. -/
theorem empty_question_rejected_in_driver_witness :
    (runQuery cfgQ envEmpty ("x".data)).embedCalls = ["x".data] ∧
    mainLoopStep cfgQ envEmpty [] = DriverStep.skipped :=
  ⟨empty_question_rejected_in_driver.1 cfgQ envEmpty ("x".data),
   empty_question_rejected_in_driver.2 cfgQ envEmpty [] (by decide)⟩

-- ============================================================
-- C2 groundwork: context assembly under the budget
-- ============================================================

/-- The formatted blocks of the candidates with non-empty stripped text,
in candidate order: exactly the blocks `_build_context_text` can append
after the intro line. -/
def ctxCandidateBlocks (ctxs : List CtxBlockInput) : List (List Char) :=
  (ctxs.filter (fun c => decide (¬ pyStrip c.text = []))).map ctxBlockOf

theorem buildCtxGo_le (maxC : Nat) :
    ∀ (ctxs : List CtxBlockInput) (blocks : List (List Char)) (total : Nat),
      total ≤ maxC → (buildCtxGo maxC ctxs blocks total).2 ≤ maxC := by
  intro ctxs
  induction ctxs with
  | nil =>
    intro blocks total h
    simpa [buildCtxGo] using h
  | cons c rest ih =>
    intro blocks total h
    simp only [buildCtxGo]
    by_cases he : pyStrip c.text = []
    · rw [if_pos he]
      exact ih _ _ h
    · rw [if_neg he]
      by_cases hov : maxC < total + (ctxBlockOf c).length
      · rw [if_pos hov]
        exact h
      · rw [if_neg hov]
        exact ih _ _ (by omega)

theorem buildCtxGo_prefix (maxC : Nat) :
    ∀ (ctxs : List CtxBlockInput) (blocks : List (List Char)) (total : Nat),
      ∃ k, (buildCtxGo maxC ctxs blocks total).1 =
        blocks ++ (ctxCandidateBlocks ctxs).take k := by
  intro ctxs
  induction ctxs with
  | nil =>
    intro blocks total
    exact ⟨0, by simp [buildCtxGo, ctxCandidateBlocks]⟩
  | cons c rest ih =>
    intro blocks total
    simp only [buildCtxGo]
    by_cases he : pyStrip c.text = []
    · rw [if_pos he]
      obtain ⟨k, hk⟩ := ih blocks total
      refine ⟨k, ?_⟩
      have hcand : ctxCandidateBlocks (c :: rest) = ctxCandidateBlocks rest := by
        simp [ctxCandidateBlocks, List.filter_cons, he]
      rw [hk, hcand]
    · rw [if_neg he]
      have hcand : ctxCandidateBlocks (c :: rest) =
          ctxBlockOf c :: ctxCandidateBlocks rest := by
        simp [ctxCandidateBlocks, List.filter_cons, he]
      by_cases hov : maxC < total + (ctxBlockOf c).length
      · rw [if_pos hov]
        exact ⟨0, by simp⟩
      · rw [if_neg hov]
        obtain ⟨k, hk⟩ := ih (blocks ++ [ctxBlockOf c]) (total + (ctxBlockOf c).length)
        refine ⟨k + 1, ?_⟩
        rw [hk, hcand, List.take_succ_cons]
        simp

theorem pySplitWsGo_append_space (ys : List Char) :
    ∀ (xs acc : List Char),
      (pySplitWsGo (xs ++ '\n' :: ys) acc).length =
        (pySplitWsGo xs acc).length + (pySplitWsGo ys []).length := by
  intro xs
  induction xs with
  | nil =>
    intro acc
    have hn : pyIsSpace '\n' = true := by decide
    by_cases hacc : acc = [] <;> simp [pySplitWsGo, hn, hacc] <;> omega
  | cons x xs ih =>
    intro acc
    simp only [List.cons_append, pySplitWsGo]
    by_cases hx : pyIsSpace x = true
    · rw [if_pos hx, if_pos hx]
      by_cases hacc : acc = []
      · rw [if_pos hacc, if_pos hacc]
        exact ih []
      · rw [if_neg hacc, if_neg hacc]
        have h2 := ih []
        simp only [List.length_cons, List.append_eq] at h2 ⊢
        omega
    · rw [if_neg hx, if_neg hx]
      exact ih (x :: acc)

theorem estimateTokens_sep (a b : List Char) :
    estimateTokens (a ++ '\n' :: '\n' :: b) = estimateTokens a + estimateTokens b := by
  unfold estimateTokens
  rw [pySplitWsGo_append_space ('\n' :: b) a []]
  congr 1

theorem estimateTokens_pyJoin (blocks : List (List Char)) :
    estimateTokens (pyJoin blocks) = (blocks.map estimateTokens).sum := by
  induction blocks with
  | nil => rfl
  | cons p rest ih =>
    cases rest with
    | nil => simp [pyJoin]
    | cons q rs =>
      rw [pyJoin_cons p (q :: rs) (by simp), estimateTokens_sep, ih]
      simp

theorem truncGo_spec (maxT : Nat) :
    ∀ (items : List RunItem) (sel : List (List Char)) (used : Nat),
      used = (sel.map estimateTokens).sum →
      ((truncGo maxT items sel used).1.map estimateTokens).sum =
        (truncGo maxT items sel used).2 ∧
      (used ≤ maxT → (truncGo maxT items sel used).2 ≤ maxT) := by
  intro items
  induction items with
  | nil =>
    intro sel used h
    exact ⟨h.symm, fun hh => hh⟩
  | cons it rest ih =>
    intro sel used h
    simp only [truncGo]
    by_cases hov : maxT < used + estimateTokens (runItemBlock it)
    · rw [if_pos hov]
      exact ⟨h.symm, fun hh => hh⟩
    · rw [if_neg hov]
      obtain ⟨ha, hb⟩ := ih (sel ++ [runItemBlock it]) (used + estimateTokens (runItemBlock it))
        (by simp [List.map_append, List.sum_append, h])
      exact ⟨ha, fun _ => hb (by omega)⟩

-- ============================================================
-- C2: budget truncation
-- ============================================================

/-- C2 (refuted at budget 10): `_build_context_text` appends the intro
line and counts it into the running length estimate before any budget
check, so with budget `max_context_chars = 10` and an empty candidate list
the final running estimate is 36 — the length estimate of the assembled
context (and the assembled context itself) exceeds the supplied budget. -/
theorem context_budget_counterexample :
    buildContextTotal 10 [] = 36 ∧ 10 < buildContextTotal 10 [] ∧
    (buildContextText 10 []).length = 36 := by decide

/-- C2 (amended): candidate blocks are appended only while the running
length estimate stays at or under the budget, the first block that would
exceed it stops the iteration with no later block substituted (the
appended blocks are a prefix of the candidate blocks, in rank order), and
the running estimate never exceeds the budget PROVIDED the budget is at
least the 36 characters of the unconditionally counted intro line; the
token-budget variant `truncate_context_by_budget` in run_search.py keeps
the token estimate of the assembled context within the budget
unconditionally. -/
theorem context_budget_truncation :
    (∀ (maxC : Nat) (ctxs : List CtxBlockInput), introText.length ≤ maxC →
        buildContextTotal maxC ctxs ≤ maxC) ∧
    (∀ (maxC : Nat) (ctxs : List CtxBlockInput),
        ∃ k, (buildCtxGo maxC ctxs [introText] introText.length).1 =
          introText :: (ctxCandidateBlocks ctxs).take k) ∧
    (∀ (maxT : Nat) (items : List RunItem),
        estimateTokens (truncateContextByBudget maxT items) ≤ maxT) := by
  refine ⟨?_, ?_, ?_⟩
  · intro maxC ctxs h
    exact buildCtxGo_le maxC ctxs [introText] introText.length h
  · intro maxC ctxs
    obtain ⟨k, hk⟩ := buildCtxGo_prefix maxC ctxs [introText] introText.length
    exact ⟨k, by simpa using hk⟩
  · intro maxT items
    have h := truncGo_spec maxT items [] 0 (by simp)
    unfold truncateContextByBudget
    rw [estimateTokens_pyJoin, h.1]
    exact h.2 (Nat.zero_le _)

/-- Witness for C2's amended statement: a budget of 100 (≥ 36) with no
candidates, and a token budget of 5 for the run_search variant. -/
theorem context_budget_truncation_witness :
    buildContextTotal 100 [] ≤ 100 ∧
    estimateTokens (truncateContextByBudget 5 []) ≤ 5 :=
  ⟨context_budget_truncation.1 100 [] (by decide),
   context_budget_truncation.2.2 5 []⟩
